import Mathlib

/-!
Shallow embedding of the fixfinder-backend core: the job lifecycle engine
(jobController: acceptApplication, completeJob, cancelJob, acceptJobRequest,
proMarkCompleted, confirmJobCompletion, createNotification) and the
conversation/message store (messageController: createOrGetConversation,
sendMessage, editMessage, shareLocation, stopLocationShare,
deleteMyMessagesInConversation, deleteAllMessagesForMe,
deleteConversationForMe), together with the Conversation schema pre-save
hook. Documents live in explicit list-based stores; mongo findById/findOne
is List.find?, findByIdAndUpdate/save is an id-keyed replacement, and
HTTP error responses are an explicit error type. Times are naturals in
milliseconds.
-/

namespace FixFinder

abbrev UserId := Nat
abbrev ProId := Nat
abbrev AppId := Nat
abbrev ConvId := Nat
abbrev MsgId := Nat
abbrev JobId := Nat

/-- The two participant role tags (`userType` strings in the source). -/
inductive Role
  | user
  | professional
deriving DecidableEq, Repr

/-- The opposite role: `userType === 'professional' ? 'user' : 'professional'`. -/
def Role.other : Role → Role
  | .user => .professional
  | .professional => .user

/-- Error kinds corresponding to the HTTP status codes the controllers
return: 404, 403, 400, 409, 500. -/
inductive Err
  | notFound
  | authorization
  | validation
  | conflict
  | server
deriving DecidableEq, Repr

/-- Application subdocument status enum. -/
inductive AppStatus
  | pending
  | accepted
  | rejected
deriving DecidableEq, Repr

/-- A professional's application on a job (subdocument of Job). -/
structure Application where
  id : AppId
  professional : ProId
  status : AppStatus
deriving DecidableEq, Repr

/-- Coarse job status enum. -/
inductive JobStatus
  | pending
  | inProgress
  | completed
  | cancelled
deriving DecidableEq, Repr

/-- Fine-grained lifecycle state enum of the Job schema. -/
inductive LifecycleState
  | posted
  | offer_pending
  | chat_open
  | job_requested
  | in_progress
  | completed_by_pro
  | closed
  | cancelled
deriving DecidableEq, Repr

/-- The Job document fields the lifecycle engine reads and writes. -/
structure Job where
  id : JobId
  client : UserId
  professional : Option ProId
  status : JobStatus
  lifecycleState : LifecycleState
  conversation : Option ConvId
  applications : List Application
  completedAt : Option Nat
  cancelledAt : Option Nat
  cancellationReason : Option String
deriving DecidableEq, Repr

/-- The Professional document fields the lifecycle engine uses. -/
structure Professional where
  id : ProId
  user : UserId
  completedJobs : Nat
deriving DecidableEq, Repr

/-- A persisted Notification record (fields relevant to the core). -/
structure Notification where
  recipient : Nat
  ntype : String
  title : String
deriving DecidableEq, Repr

/-- The job-side store: Job and Professional collections. -/
structure JobEnv where
  jobs : List Job
  pros : List Professional
deriving DecidableEq, Repr

/-- `Model.findById`: first document whose id matches. -/
def findById {α : Type} (gid : α → Nat) (l : List α) (i : Nat) : Option α :=
  l.find? fun y => gid y == i

/-- `doc.save()` / `findByIdAndUpdate` as id-keyed replacement in the store. -/
def saveById {α : Type} (gid : α → Nat) (l : List α) (x : α) : List α :=
  l.map fun y => if gid y == gid x then x else y

/-- `Professional.findOne({ user: userId })`. -/
def proByUser (pros : List Professional) (u : UserId) : Option Professional :=
  pros.find? fun p => p.user == u

/-- `application.status = 'Accepted'` on the subdocument returned by
`job.applications.id(applicationId)` (the first one with that id). -/
def markFirstAccepted : List Application → AppId → List Application
  | [], _ => []
  | a :: rest, i =>
    if a.id = i then { a with status := AppStatus.accepted } :: rest
    else a :: markFirstAccepted rest i

/-- The rejection loop: every application whose `_id` differs from the
accepted one is marked Rejected. -/
def rejectOthers (apps : List Application) (i : AppId) : List Application :=
  apps.map fun a => if a.id ≠ i then { a with status := AppStatus.rejected } else a

/-- `acceptApplication` (jobController): 404 if the job is absent, 403 if the
caller is not the job's client, 404 if the application is absent; otherwise
accept that application, set `job.professional`, move `lifecycleState` to
`chat_open`, reject all sibling applications, and save the job. -/
def acceptApplication (env : JobEnv) (userId : UserId) (jobId : JobId)
    (applicationId : AppId) : Except Err (Job × JobEnv) :=
  match findById Job.id env.jobs jobId with
  | none => .error .notFound
  | some job =>
    if job.client ≠ userId then .error .authorization
    else
      match job.applications.find? (fun a => a.id == applicationId) with
      | none => .error .notFound
      | some application =>
        let apps := rejectOthers (markFirstAccepted job.applications applicationId) applicationId
        let job' := { job with
          professional := some application.professional
          lifecycleState := LifecycleState.chat_open
          applications := apps }
        .ok (job', { env with jobs := saveById Job.id env.jobs job' })

/-- `completeJob` (jobController): client or assigned professional (compared
by raw id) may mark the job Completed; no state precondition. -/
def completeJob (env : JobEnv) (userId : UserId) (jobId : JobId) (now : Nat) :
    Except Err (Job × JobEnv) :=
  match findById Job.id env.jobs jobId with
  | none => .error .notFound
  | some job =>
    let isClient : Bool := job.client == userId
    let isPro : Bool := job.professional == some userId
    if !(isClient || isPro) then .error .authorization
    else
      let job' := { job with status := JobStatus.completed, completedAt := some now }
      .ok (job', { env with jobs := saveById Job.id env.jobs job' })

/-- `cancelJob` (jobController): client or the user owning the assigned
professional profile may cancel; sets status Cancelled, lifecycleState
cancelled, cancelledAt and the reason; no state precondition. -/
def cancelJob (env : JobEnv) (userId : UserId) (jobId : JobId) (reason : String)
    (now : Nat) : Except Err (Job × JobEnv) :=
  match findById Job.id env.jobs jobId with
  | none => .error .notFound
  | some job =>
    let isClient : Bool := job.client == userId
    let isPro : Bool :=
      match job.professional, proByUser env.pros userId with
      | some pid, some pro => pid == pro.id
      | _, _ => false
    if !(isClient || isPro) then .error .authorization
    else
      let job' := { job with
        status := JobStatus.cancelled
        cancelledAt := some now
        cancellationReason := some reason
        lifecycleState := LifecycleState.cancelled }
      .ok (job', { env with jobs := saveById Job.id env.jobs job' })

/-- `acceptJobRequest` (jobController): the user owning the professional
profile linked on the job sets status In Progress and lifecycleState
in_progress; no state precondition. -/
def acceptJobRequest (env : JobEnv) (userId : UserId) (jobId : JobId) :
    Except Err (Job × JobEnv) :=
  match findById Job.id env.jobs jobId with
  | none => .error .notFound
  | some job =>
    let ok : Bool :=
      match job.professional, proByUser env.pros userId with
      | some pid, some pro => pid == pro.id
      | _, _ => false
    if !ok then .error .authorization
    else
      let job' := { job with
        status := JobStatus.inProgress
        lifecycleState := LifecycleState.in_progress }
      .ok (job', { env with jobs := saveById Job.id env.jobs job' })

/-- `proMarkCompleted` (jobController): the assigned professional's user sets
lifecycleState completed_by_pro; no state precondition. -/
def proMarkCompleted (env : JobEnv) (userId : UserId) (jobId : JobId) :
    Except Err (Job × JobEnv) :=
  match findById Job.id env.jobs jobId with
  | none => .error .notFound
  | some job =>
    let ok : Bool :=
      match job.professional, proByUser env.pros userId with
      | some pid, some pro => pid == pro.id
      | _, _ => false
    if !ok then .error .authorization
    else
      let job' := { job with lifecycleState := LifecycleState.completed_by_pro }
      .ok (job', { env with jobs := saveById Job.id env.jobs job' })

/-- `confirmJobCompletion` (jobController): the client sets status Completed,
lifecycleState closed, completedAt, and increments the professional's
completedJobs counter; no state precondition. -/
def confirmJobCompletion (env : JobEnv) (userId : UserId) (jobId : JobId)
    (now : Nat) : Except Err (Job × JobEnv) :=
  match findById Job.id env.jobs jobId with
  | none => .error .notFound
  | some job =>
    if job.client ≠ userId then .error .authorization
    else
      let job' := { job with
        status := JobStatus.completed
        lifecycleState := LifecycleState.closed
        completedAt := some now }
      let jobs' := saveById Job.id env.jobs job'
      let pros' :=
        match job'.professional with
        | some pid =>
          match findById Professional.id env.pros pid with
          | some pro => saveById Professional.id env.pros
              { pro with completedJobs := pro.completedJobs + 1 }
          | none => env.pros
        | none => env.pros
      .ok (job', { jobs := jobs', pros := pros' })

/-- Failure switches for the best-effort secondary effects of a job
operation: notification save, conversation-room emit, user-room emits. -/
structure FxFlags where
  notifSaveFails : Bool
  convEmitFails : Bool
  userEmitFails : Bool
deriving DecidableEq, Repr

/-- `createNotification` (jobController helper): save plus push, with every
error caught and logged inside the helper, so it never throws; on failure
the notification is simply not stored. -/
def createNotification (notifs : List Notification) (n : Notification)
    (saveFails : Bool) : List Notification :=
  if saveFails then notifs else notifs ++ [n]

/-- `acceptApplication` including its secondary-effect steps: after the job
is saved, `createNotification` runs (it swallows its own failures), then the
conversation-room `job:update` emit runs outside any try/catch (so its
failure escapes to the outer handler and becomes a 500 response), and the
user-room emits run inside `try { ... } catch (_) {}`. Returns the response,
the job store after the run, and the notification store after the run. -/
def acceptApplicationFx (env : JobEnv) (notifs : List Notification)
    (flags : FxFlags) (userId : UserId) (jobId : JobId) (applicationId : AppId) :
    Except Err Job × JobEnv × List Notification :=
  match acceptApplication env userId jobId applicationId with
  | .error e => (.error e, env, notifs)
  | .ok (job', env') =>
    let notifs' := createNotification notifs
      { recipient := (job'.professional).getD 0
        ntype := "job_accepted"
        title := "Job Application Accepted" } flags.notifSaveFails
    if job'.conversation.isSome ∧ flags.convEmitFails then
      (.error .server, env', notifs')
    else
      (.ok job', env', notifs')

/-- A conversation participant entry `{ user, userType }`. -/
structure Participant where
  user : UserId
  userType : Role
deriving DecidableEq, Repr

/-- The Conversation document fields the message store reads and writes.
`unreadUser`/`unreadPro` are the two `unreadCount` counters keyed by role. -/
structure Conversation where
  id : ConvId
  participants : List Participant
  job : Option JobId
  lastMessage : Option MsgId
  lastMessageAt : Nat
  isActive : Bool
  unreadUser : Nat
  unreadPro : Nat
  hiddenFor : List UserId
deriving DecidableEq, Repr

/-- The `unreadCount` counter for a given role key. -/
def Conversation.unreadOf (c : Conversation) : Role → Nat
  | .user => c.unreadUser
  | .professional => c.unreadPro

/-- The location payload shape of a request or stored message content:
each coordinate may or may not be present. -/
structure LocPayload where
  lat : Option Int
  lng : Option Int
  accuracy : Option Int
deriving DecidableEq, Repr

/-- The contact payload shape. -/
structure ContactPayload where
  cname : Option String
  phone : Option String
  email : Option String
deriving DecidableEq, Repr

/-- The `content` envelope of a request body and of a stored message: the
text, location and contact branches, each optionally populated. -/
structure Content where
  text : Option String
  location : Option LocPayload
  contact : Option ContactPayload
deriving DecidableEq, Repr

/-- The empty content envelope `{}`. -/
def emptyContent : Content := { text := none, location := none, contact := none }

/-- How many union branches of a content envelope are populated. -/
def Content.branchCount (c : Content) : Nat :=
  (if c.text.isSome then 1 else 0) + (if c.location.isSome then 1 else 0) +
    (if c.contact.isSome then 1 else 0)

/-- Message type enum values the message store actually produces. -/
inductive MsgType
  | text
  | location
  | location_share
  | contact
  | system
deriving DecidableEq, Repr

/-- The Message document fields the message store reads and writes. -/
structure Message where
  id : MsgId
  conversation : ConvId
  sender : UserId
  senderType : Role
  content : Content
  messageType : MsgType
  isLocationSharing : Bool
  isRead : Bool
  isEdited : Bool
  editedAt : Option Nat
  isDeleted : Bool
  deletedAt : Option Nat
  replyTo : Option MsgId
  hiddenFor : List UserId
  createdAt : Nat
deriving DecidableEq, Repr

/-- The message-side store: Conversation, Message and Notification
collections, plus the User collection reduced to the ids that exist. -/
structure MsgEnv where
  users : List UserId
  convs : List Conversation
  msgs : List Message
  notifs : List Notification
deriving DecidableEq, Repr

/-- `conversation.participants.some(p => p.user.toString() === userId)`. -/
def isParticipant (c : Conversation) (u : UserId) : Bool :=
  c.participants.any fun p => p.user == u

/-- JS truthiness of an optional string (`''` is falsy). -/
def strTruthy : Option String → Bool
  | some s => s ≠ ""
  | none => false

/-- The content-building if/else chain of `sendMessage`: the branch selected
by `messageType` is copied from the request when its guard passes, and a
location branch additionally requires both `lat !== undefined` and
`lng !== undefined`; otherwise the envelope stays empty. -/
def contentFromReq (t : MsgType) (c : Content) : Content :=
  if t = MsgType.text ∧ strTruthy c.text then
    { text := c.text, location := none, contact := none }
  else if h : t = MsgType.location ∧ c.location.isSome then
    let l := (c.location).get h.2
    if l.lat.isSome ∧ l.lng.isSome then
      { text := none, location := some l, contact := none }
    else emptyContent
  else if h : t = MsgType.location_share ∧ c.location.isSome then
    let l := (c.location).get h.2
    if l.lat.isSome ∧ l.lng.isSome then
      { text := none, location := some l, contact := none }
    else emptyContent
  else if t = MsgType.contact ∧ c.contact.isSome then
    { text := none, location := none, contact := c.contact }
  else if t = MsgType.text ∧ strTruthy c.text then
    { text := c.text, location := none, contact := none }
  else emptyContent

/-- The route-level validation of `POST /messages/conversations/:id`: a
content body must be present, and `messageType`, when given, must be one of
text, location, contact. -/
def sendMessageValidationOk (c : Option Content) (t : MsgType) : Bool :=
  c.isSome && (t = MsgType.text ∨ t = MsgType.location ∨ t = MsgType.contact : Bool)

/-- The repeated `Conversation.findByIdAndUpdate` after persisting a message:
set `lastMessage` and `lastMessageAt` to the new message and increment the
unread counter of the role opposite the sender's. -/
def bumpConv (c : Conversation) (mid : MsgId) (createdAt : Nat) (senderRole : Role) :
    Conversation :=
  { c with
    lastMessage := some mid
    lastMessageAt := createdAt
    unreadUser := if senderRole = Role.professional then c.unreadUser + 1 else c.unreadUser
    unreadPro := if senderRole = Role.professional then c.unreadPro else c.unreadPro + 1 }

/-- The message document `sendMessage` persists: content built by
`contentFromReq`, fresh id, created now. -/
def sendMsgNew (msgsLen : Nat) (now : Nat) (callerId : UserId) (callerRole : Role)
    (convId : ConvId) (rc : Content) (t : MsgType) (replyTo : Option MsgId) : Message :=
  { id := msgsLen
    conversation := convId
    sender := callerId
    senderType := callerRole
    content := contentFromReq t rc
    messageType := t
    isLocationSharing := false
    isRead := false
    isEdited := false
    editedAt := none
    isDeleted := false
    deletedAt := none
    replyTo := replyTo
    hiddenFor := []
    createdAt := now }

/-- The `hiddenFor` ids `sendMessage` pulls from the conversation: the
sender and, when present, the other participant. -/
def sendPullIds (conv : Conversation) (callerId : UserId) : List UserId :=
  callerId :: (match conv.participants.find? (fun p => p.user != callerId) with
    | some other => [other.user]
    | none => [])

/-- The two conversation updates of `sendMessage` combined: bump
lastMessage/lastMessageAt/unread, then `$pull` both participants from
`hiddenFor`. -/
def sendConvUpdate (conv : Conversation) (mid : MsgId) (createdAt : Nat)
    (senderRole : Role) (callerId : UserId) : Conversation :=
  let conv1 := bumpConv conv mid createdAt senderRole
  { conv1 with
    hiddenFor := conv1.hiddenFor.filter fun u => !((sendPullIds conv callerId).contains u) }

/-- The `new_message` notification write of `sendMessage`. -/
def sendNotifUpdate (notifs : List Notification) (conv : Conversation)
    (callerId : UserId) : List Notification :=
  match conv.participants.find? (fun p => p.user != callerId) with
  | some other => notifs ++
      [{ recipient := other.user, ntype := "new_message", title := "New Message" }]
  | none => notifs

/-- `sendMessage` (messageController): route validation, 404 on a missing
conversation, 403 on a non-participant, then unconditionally persist the
message built by `contentFromReq`, bump the conversation, store a
`new_message` notification for the other participant, and pull both
participants from the conversation's `hiddenFor`. -/
def sendMessage (env : MsgEnv) (now : Nat) (callerId : UserId) (callerRole : Role)
    (convId : ConvId) (reqContent : Option Content) (messageType : MsgType)
    (replyTo : Option MsgId) : Except Err Message × MsgEnv :=
  if !sendMessageValidationOk reqContent messageType then (.error .validation, env)
  else
    match findById Conversation.id env.convs convId with
    | none => (.error .notFound, env)
    | some conv =>
      if !isParticipant conv callerId then (.error .authorization, env)
      else
        let m := sendMsgNew env.msgs.length now callerId callerRole convId
          (reqContent.getD emptyContent) messageType replyTo
        (.ok m, { env with
          convs := saveById Conversation.id env.convs
            (sendConvUpdate conv m.id m.createdAt callerRole callerId)
          msgs := env.msgs ++ [m]
          notifs := sendNotifUpdate env.notifs conv callerId })

/-- `editMessage` (messageController): 404 on a missing message, 403 when the
caller is not the sender, 400 when more than 2 minutes have elapsed since
creation; otherwise overwrite the text branch, mark edited, and save. -/
def editMessage (env : MsgEnv) (now : Nat) (callerId : UserId) (msgId : MsgId)
    (newText : String) : Except Err Message × MsgEnv :=
  match findById Message.id env.msgs msgId with
  | none => (.error .notFound, env)
  | some m =>
    if m.sender ≠ callerId then (.error .authorization, env)
    else if now - m.createdAt > 2 * 60 * 1000 then (.error .validation, env)
    else
      let m' := { m with
        content := { m.content with text := some newText }
        isEdited := true
        editedAt := some now }
      (.ok m', { env with msgs := saveById Message.id env.msgs m' })

/-- `shareLocation` (messageController): 404/403 checks, then persist a
`location_share` message whose content populates BOTH the text branch and the
location branch, and bump the conversation. The route validates that `lat`
and `lng` are numbers. -/
def shareLocation (env : MsgEnv) (now : Nat) (callerId : UserId)
    (callerRole : Role) (convId : ConvId) (lat lng : Int) (accuracy : Option Int) :
    Except Err Message × MsgEnv :=
  match findById Conversation.id env.convs convId with
  | none => (.error .notFound, env)
  | some conv =>
    if !isParticipant conv callerId then (.error .authorization, env)
    else
      let m : Message :=
        { id := env.msgs.length
          conversation := convId
          sender := callerId
          senderType := callerRole
          content :=
            { text := some "🗺️ You are now sharing your location."
              location := some { lat := some lat, lng := some lng, accuracy := accuracy }
              contact := none }
          messageType := MsgType.location_share
          isLocationSharing := true
          isRead := false
          isEdited := false
          editedAt := none
          isDeleted := false
          deletedAt := none
          replyTo := none
          hiddenFor := []
          createdAt := now }
      let conv' := bumpConv conv m.id m.createdAt callerRole
      (.ok m, { env with
        convs := saveById Conversation.id env.convs conv'
        msgs := env.msgs ++ [m] })

/-- `stopLocationShare` (messageController): 404/403 checks, then persist a
`system` message with a text-only content and bump the conversation. -/
def stopLocationShare (env : MsgEnv) (now : Nat) (callerId : UserId)
    (callerRole : Role) (convId : ConvId) : Except Err Message × MsgEnv :=
  match findById Conversation.id env.convs convId with
  | none => (.error .notFound, env)
  | some conv =>
    if !isParticipant conv callerId then (.error .authorization, env)
    else
      let m : Message :=
        { id := env.msgs.length
          conversation := convId
          sender := callerId
          senderType := callerRole
          content := { text := some "🔒 Location sharing stopped.",
                       location := none, contact := none }
          messageType := MsgType.system
          isLocationSharing := false
          isRead := false
          isEdited := false
          editedAt := none
          isDeleted := false
          deletedAt := none
          replyTo := none
          hiddenFor := []
          createdAt := now }
      let conv' := bumpConv conv m.id m.createdAt callerRole
      (.ok m, { env with
        convs := saveById Conversation.id env.convs conv'
        msgs := env.msgs ++ [m] })

/-- The lookup query of `createOrGetConversation`:
`{ 'participants.user': { $all: [userId, otherUserId] }, isActive: true }`. -/
def pairQuery (u v : UserId) (c : Conversation) : Bool :=
  (c.participants.any fun p => p.user == u) &&
    (c.participants.any fun p => p.user == v) && c.isActive

/-- `createOrGetConversation` (messageController): 404 when either user does
not exist; return the first active conversation containing both user ids if
one exists; otherwise create one with exactly these two participants, the
caller keeping its own role and the other user getting the opposite role. -/
def createOrGetConversation (env : MsgEnv) (now : Nat) (callerId : UserId)
    (callerRole : Role) (otherUserId : UserId) (jobId : Option JobId) :
    Except Err Conversation × MsgEnv :=
  if callerId ∉ env.users then (.error .notFound, env)
  else if otherUserId ∉ env.users then (.error .notFound, env)
  else
    match env.convs.find? (pairQuery callerId otherUserId) with
    | some c => (.ok c, env)
    | none =>
      let c : Conversation :=
        { id := env.convs.length
          participants := [{ user := callerId, userType := callerRole },
                           { user := otherUserId, userType := callerRole.other }]
          job := jobId
          lastMessage := none
          lastMessageAt := now
          isActive := true
          unreadUser := 0
          unreadPro := 0
          hiddenFor := [] }
      (.ok c, { env with convs := env.convs ++ [c] })

/-- The `conversationSchema.pre('save')` hook: saving fails unless the
participants array has exactly 2 members. -/
def preSaveCheck (c : Conversation) : Except String Unit :=
  if c.participants.length ≠ 2 then
    .error "Conversation must have exactly 2 participants"
  else .ok ()

/-- `deleteMyMessagesInConversation` (messageController): 404 on a missing
conversation, 403 on a non-participant, then soft-delete the caller's own
not-yet-deleted messages in the conversation, globally. -/
def deleteMyMessagesInConversation (env : MsgEnv) (now : Nat) (callerId : UserId)
    (convId : ConvId) : Except Err Unit × MsgEnv :=
  match findById Conversation.id env.convs convId with
  | none => (.error .notFound, env)
  | some conv =>
    if !isParticipant conv callerId then (.error .authorization, env)
    else
      let msgs' := env.msgs.map fun m =>
        if m.conversation == convId && m.sender == callerId && !m.isDeleted then
          { m with isDeleted := true, deletedAt := some now }
        else m
      (.ok (), { env with msgs := msgs' })

/-- `deleteAllMessagesForMe` (messageController): no conversation lookup and
no participant check; push the caller onto `hiddenFor` of every message of
the conversation that does not already carry it. -/
def deleteAllMessagesForMe (env : MsgEnv) (callerId : UserId) (convId : ConvId) :
    Except Err Unit × MsgEnv :=
  let msgs' := env.msgs.map fun m =>
    if m.conversation == convId && !(m.hiddenFor.contains callerId) then
      { m with hiddenFor := m.hiddenFor ++ [callerId] }
    else m
  (.ok (), { env with msgs := msgs' })

/-- `deleteConversationForMe` (messageController): no participant check;
`$addToSet` the caller onto the conversation's `hiddenFor`, 404 only when
the conversation does not exist. -/
def addToSetHidden (c : Conversation) (u : UserId) : Conversation :=
  if u ∈ c.hiddenFor then c else { c with hiddenFor := c.hiddenFor ++ [u] }

def deleteConversationForMe (env : MsgEnv) (callerId : UserId) (convId : ConvId) :
    Except Err Unit × MsgEnv :=
  match findById Conversation.id env.convs convId with
  | none => (.error .notFound, env)
  | some conv =>
    (.ok (), { env with
      convs := saveById Conversation.id env.convs (addToSetHidden conv callerId) })

/-- The message produced by a successful `editMessage`: text branch
overwritten, marked edited. -/
def editedMsg (m : Message) (now : Nat) (newText : String) : Message :=
  { m with
    content := { m.content with text := some newText },
    isEdited := true,
    editedAt := some now }

/-- The job used as the C2 failing input: already cancelled (terminal). -/
def c2CancelledJob : Job :=
  { id := 7, client := 1, professional := some 5, status := JobStatus.cancelled
    lifecycleState := LifecycleState.cancelled, conversation := none
    applications := [], completedAt := none, cancelledAt := some 50
    cancellationReason := some "changed my mind" }

/-- A second C2 failing input: a closed job. -/
def c2ClosedJob : Job :=
  { id := 8, client := 1, professional := some 5, status := JobStatus.completed
    lifecycleState := LifecycleState.closed, conversation := none
    applications := [], completedAt := some 60, cancelledAt := none
    cancellationReason := none }

/-- The job store holding the two terminal C2 jobs; professional 5 is owned
by user 2. -/
def c2Env : JobEnv :=
  { jobs := [c2CancelledJob, c2ClosedJob]
    pros := [{ id := 5, user := 2, completedJobs := 3 }] }

/-- The C1 witness store: job 3 of client 1 with two pending applications. -/
def c1Env : JobEnv :=
  { jobs := [{ id := 3, client := 1, professional := none
               status := JobStatus.pending, lifecycleState := LifecycleState.posted
               conversation := none
               applications := [{ id := 10, professional := 5, status := AppStatus.pending },
                                { id := 11, professional := 6, status := AppStatus.pending }]
               completedAt := none, cancelledAt := none, cancellationReason := none }]
    pros := [] }

/-- The C5 witness store: message 0 in conversation 4, sent by user 1 at
time 1000. -/
def c5Env : MsgEnv :=
  { users := [1, 2]
    convs := []
    msgs := [{ id := 0, conversation := 4, sender := 1, senderType := Role.user
               content := { text := some "hello", location := none, contact := none }
               messageType := MsgType.text, isLocationSharing := false
               isRead := false, isEdited := false, editedAt := none
               isDeleted := false, deletedAt := none, replyTo := none
               hiddenFor := [], createdAt := 1000 }]
    notifs := [] }

/-- The C10 witness store: conversation 9 between users 1 and 2, with one
message from user 1; user 3 is not a participant. -/
def c10Env : MsgEnv :=
  { users := [1, 2, 3]
    convs := [{ id := 9
                participants := [{ user := 1, userType := Role.user },
                                 { user := 2, userType := Role.professional }]
                job := none, lastMessage := some 0, lastMessageAt := 500
                isActive := true, unreadUser := 0, unreadPro := 1, hiddenFor := [] }]
    msgs := [{ id := 0, conversation := 9, sender := 1, senderType := Role.user
               content := { text := some "hi", location := none, contact := none }
               messageType := MsgType.text, isLocationSharing := false
               isRead := false, isEdited := false, editedAt := none
               isDeleted := false, deletedAt := none, replyTo := none
               hiddenFor := [], createdAt := 500 }]
    notifs := [] }

/-- A request content carrying a location with latitude but no longitude. -/
def c3Req : Content :=
  { text := none
    location := some { lat := some 5, lng := none, accuracy := none }
    contact := none }

/-- A conversation shape with no participants, used to exercise the
pre-save hook. -/
def c7BadConv : Conversation :=
  { id := 50, participants := [], job := none, lastMessage := none
    lastMessageAt := 0, isActive := true, unreadUser := 0, unreadPro := 0
    hiddenFor := [] }

/-- The conversation `createOrGetConversation` creates at `c5Env` between
user 1 (role user) and user 2. -/
def c7NewConv : Conversation :=
  { id := 0
    participants := [{ user := 1, userType := Role.user },
                     { user := 2, userType := Role.professional }]
    job := none, lastMessage := none, lastMessageAt := 100
    isActive := true, unreadUser := 0, unreadPro := 0, hiddenFor := [] }

/-- The C8 store: job 20 of client 1, linked to conversation 3, with one
pending application by professional 5 (owned by user 2). -/
def c8Env : JobEnv :=
  { jobs := [{ id := 20, client := 1, professional := none
               status := JobStatus.pending, lifecycleState := LifecycleState.posted
               conversation := some 3
               applications := [{ id := 30, professional := 5, status := AppStatus.pending }]
               completedAt := none, cancelledAt := none, cancellationReason := none }]
    pros := [{ id := 5, user := 2, completedJobs := 0 }] }

/-- Job 20 as persisted by `acceptApplication c8Env 1 20 30`. -/
def c8JobSaved : Job :=
  { id := 20, client := 1, professional := some 5
    status := JobStatus.pending, lifecycleState := LifecycleState.chat_open
    conversation := some 3
    applications := [{ id := 30, professional := 5, status := AppStatus.accepted }]
    completedAt := none, cancelledAt := none, cancellationReason := none }

/-- The job store after `acceptApplication c8Env 1 20 30`. -/
def c8EnvSaved : JobEnv :=
  { jobs := [c8JobSaved], pros := c8Env.pros }

/-! ## Store lemmas -/

/-- Replacing a document by id leaves it findable: if some document with id
`i` was in the store and the new document carries id `i`, the lookup now
returns the new document. -/
theorem find?_saveById {α : Type} (gid : α → Nat) (l : List α) (x : α) (i : Nat)
    (hx : gid x = i) (h : (l.find? fun y => gid y == i).isSome) :
    ((saveById gid l x).find? fun y => gid y == i) = some x := by
  induction l with
  | nil => simp [List.find?] at h
  | cons a t ih =>
    have hsave : saveById gid (a :: t) x =
        (if gid a == gid x then x else a) :: saveById gid t x := rfl
    by_cases ha : gid a = i
    · rw [hsave, if_pos (by simp [ha, hx])]
      exact List.find?_cons_of_pos _ (by simp [hx])
    · have hskip : List.find? (fun y => gid y == i) (a :: t) =
          List.find? (fun y => gid y == i) t :=
        List.find?_cons_of_neg _ (by simp [ha])
      have ht : (t.find? fun y => gid y == i).isSome := by
        rw [hskip] at h
        exact h
      have hskip' : List.find? (fun y => gid y == i) (a :: saveById gid t x) =
          List.find? (fun y => gid y == i) (saveById gid t x) :=
        List.find?_cons_of_neg _ (by simp [ha])
      rw [hsave, if_neg (by simp [hx]; exact ha), hskip']
      exact ih ht

/-- `List.find?` only looks at the predicate pointwise. -/
theorem find?_congrPred {α : Type} (p q : α → Bool) (l : List α)
    (h : ∀ x, p x = q x) : l.find? p = l.find? q := by
  induction l with
  | nil => rfl
  | cons a t ih =>
    by_cases hp : p a = true
    · have h1 : List.find? p (a :: t) = some a := List.find?_cons_of_pos _ hp
      have h2 : List.find? q (a :: t) = some a :=
        List.find?_cons_of_pos _ (by rw [← h a]; exact hp)
      rw [h1, h2]
    · have h1 : List.find? p (a :: t) = List.find? p t := List.find?_cons_of_neg _ hp
      have h2 : List.find? q (a :: t) = List.find? q t :=
        List.find?_cons_of_neg _ (by rw [← h a]; exact hp)
      rw [h1, h2, ih]

/-! ## Claim theorems -/

/-- Claim C2: the claim says that for a job whose lifecycleState is closed or
cancelled no lifecycle operation succeeds in changing status or
lifecycleState. The code enforces no state precondition: the client's
`confirmJobCompletion` on the cancelled job 7 succeeds and moves it to
status Completed / lifecycleState closed, and the assigned professional's
`acceptJobRequest` on the closed job 8 succeeds and moves it back to
status In Progress / lifecycleState in_progress — terminality and
no-regression are both violated by the code at these inputs. -/
theorem terminal_states_not_enforced :
    (∃ j env', confirmJobCompletion c2Env 1 7 100 = .ok (j, env') ∧
      j.status = JobStatus.completed ∧ j.lifecycleState = LifecycleState.closed ∧
      findById Job.id env'.jobs 7 = some j) ∧
    (∃ j env', acceptJobRequest c2Env 2 8 = .ok (j, env') ∧
      j.status = JobStatus.inProgress ∧ j.lifecycleState = LifecycleState.in_progress ∧
      findById Job.id env'.jobs 8 = some j) := by
  refine ⟨⟨_, _, rfl, rfl, rfl, by decide⟩, ⟨_, _, rfl, rfl, rfl, by decide⟩⟩

/-- After accepting application `i` and rejecting the siblings, every
application's status is determined by whether its id is `i` — provided the
application ids are distinct, as mongo subdocument ids are. -/
theorem status_after_accept (apps : List Application) (i : AppId)
    (hnd : (apps.map Application.id).Nodup) :
    ∀ a' ∈ rejectOthers (markFirstAccepted apps i) i,
      a'.status = if a'.id = i then AppStatus.accepted else AppStatus.rejected := by
  induction apps with
  | nil => intro a' ha'; simp [markFirstAccepted, rejectOthers] at ha'
  | cons a rest ih =>
    have hnd' : (rest.map Application.id).Nodup := (List.nodup_cons.mp hnd).2
    have hnotin : a.id ∉ rest.map Application.id := (List.nodup_cons.mp hnd).1
    intro a' ha'
    by_cases hid : a.id = i
    · have hres : rejectOthers (markFirstAccepted (a :: rest) i) i =
          { a with status := AppStatus.accepted } ::
            (rest.map fun b => if b.id ≠ i then { b with status := AppStatus.rejected }
              else b) := by
        simp [markFirstAccepted, hid, rejectOthers]
      rw [hres] at ha'
      rcases List.mem_cons.mp ha' with h1 | h2
      · subst h1; simp [hid]
      · rcases List.mem_map.mp h2 with ⟨b, hb, hb'⟩
        have hbne : b.id ≠ i := by
          intro hbi
          exact hnotin (hid ▸ hbi ▸ List.mem_map_of_mem Application.id hb)
        rw [if_pos hbne] at hb'
        rw [← hb']
        simp [hbne]
    · have hres : rejectOthers (markFirstAccepted (a :: rest) i) i =
          { a with status := AppStatus.rejected } ::
            rejectOthers (markFirstAccepted rest i) i := by
        simp [markFirstAccepted, hid, rejectOthers]
      rw [hres] at ha'
      rcases List.mem_cons.mp ha' with h1 | h2
      · subst h1; simp [hid]
      · exact ih hnd' a' h2

/-- Claim C1: given the job is found, `acceptApplication` by a caller other
than the job's client fails with AuthorizationError; by the client with an
absent application id it fails with NotFoundError; and by the client with a
present application id (ids distinct) it succeeds, marks exactly that
application Accepted and every other application Rejected, sets
`job.professional` to the accepted application's professional, sets
`lifecycleState` to chat_open, and persists the job. -/
theorem acceptApplication_spec (env : JobEnv) (userId : UserId) (jobId : JobId)
    (applicationId : AppId) (job : Job)
    (hfind : findById Job.id env.jobs jobId = some job) :
    (job.client ≠ userId →
      acceptApplication env userId jobId applicationId = .error .authorization) ∧
    (job.client = userId →
      job.applications.find? (fun a => a.id == applicationId) = none →
      acceptApplication env userId jobId applicationId = .error .notFound) ∧
    (∀ app, job.client = userId →
      job.applications.find? (fun a => a.id == applicationId) = some app →
      (job.applications.map Application.id).Nodup →
      ∃ job' env',
        acceptApplication env userId jobId applicationId = .ok (job', env') ∧
        job'.professional = some app.professional ∧
        job'.lifecycleState = LifecycleState.chat_open ∧
        (∀ a' ∈ job'.applications,
          a'.status = if a'.id = applicationId then AppStatus.accepted
            else AppStatus.rejected) ∧
        findById Job.id env'.jobs jobId = some job') := by
  refine ⟨?_, ?_, ?_⟩
  · intro hne
    simp [acceptApplication, findById] at hfind ⊢
    rw [hfind]
    simp [hne]
  · intro hcl hnone
    simp [acceptApplication, findById] at hfind ⊢
    rw [hfind]
    simp [hcl, hnone]
  · intro app hcl hsome hnd
    have hjid : job.id = jobId := by
      have := List.find?_some hfind
      simpa using this
    let j' : Job := { job with
      professional := some app.professional
      lifecycleState := LifecycleState.chat_open
      applications := rejectOthers (markFirstAccepted job.applications applicationId)
        applicationId }
    let e' : JobEnv := { env with jobs := saveById Job.id env.jobs j' }
    refine ⟨j', e', ?_, rfl, rfl, ?_, ?_⟩
    · simp [acceptApplication, findById] at hfind ⊢
      rw [hfind]
      simp [hcl, hsome, j', e']
    · exact status_after_accept job.applications applicationId hnd
    · exact find?_saveById Job.id env.jobs j' jobId hjid
        (by have := congrArg Option.isSome hfind; simpa [findById] using this)

/-- Witness for C1 at the concrete store `c1Env`: client 1 accepts
application 10 on job 3. -/
theorem acceptApplication_spec_witness :
    ∃ job' env', acceptApplication c1Env 1 3 10 = .ok (job', env') ∧
      job'.professional = some 5 ∧
      job'.lifecycleState = LifecycleState.chat_open ∧
      (∀ a' ∈ job'.applications,
        a'.status = if a'.id = 10 then AppStatus.accepted else AppStatus.rejected) ∧
      findById Job.id env'.jobs 3 = some job' :=
  (acceptApplication_spec c1Env 1 3 10
      ((c1Env.jobs).get ⟨0, by decide⟩) (by decide)).2.2
    { id := 10, professional := 5, status := AppStatus.pending }
    (by decide) (by decide) (by decide)

/-- Claim C5: for an existing message, `editMessage` succeeds exactly when the
caller is the original sender and at most 2 minutes have elapsed since the
message's creation; a non-sender gets AuthorizationError, a sender editing a
message older than 2 minutes gets ValidationError, and in both failure cases
the store is unchanged; on success the text branch is overwritten and the
message is marked edited. -/
theorem editMessage_spec (env : MsgEnv) (now : Nat) (callerId : UserId)
    (msgId : MsgId) (newText : String) (m : Message)
    (hfind : findById Message.id env.msgs msgId = some m) :
    ((∃ m2, (editMessage env now callerId msgId newText).1 = .ok m2) ↔
      (m.sender = callerId ∧ now - m.createdAt ≤ 2 * 60 * 1000)) ∧
    (m.sender ≠ callerId →
      editMessage env now callerId msgId newText = (.error .authorization, env)) ∧
    (m.sender = callerId → now - m.createdAt > 2 * 60 * 1000 →
      editMessage env now callerId msgId newText = (.error .validation, env)) ∧
    (m.sender = callerId → now - m.createdAt ≤ 2 * 60 * 1000 →
      editMessage env now callerId msgId newText =
        (.ok (editedMsg m now newText),
         { env with msgs := saveById Message.id env.msgs (editedMsg m now newText) })) := by
  have hred : editMessage env now callerId msgId newText =
      (if m.sender ≠ callerId then (Except.error Err.authorization, env)
       else if now - m.createdAt > 2 * 60 * 1000 then (Except.error Err.validation, env)
       else (.ok (editedMsg m now newText),
         { env with msgs := saveById Message.id env.msgs (editedMsg m now newText) })) := by
    simp only [editMessage]
    rw [hfind]
    rfl
  refine ⟨?_, ?_, ?_, ?_⟩
  · rw [hred]
    by_cases hs : m.sender = callerId
    · by_cases ht : now - m.createdAt > 2 * 60 * 1000
      · rw [if_neg (by simp [hs]), if_pos ht]
        constructor
        · rintro ⟨m2, hm2⟩
          simp at hm2
        · rintro ⟨_, hle⟩
          exact absurd ht (not_lt.mpr hle)
      · rw [if_neg (by simp [hs]), if_neg ht]
        constructor
        · intro _
          exact ⟨hs, Nat.le_of_not_lt ht⟩
        · intro _
          exact ⟨editedMsg m now newText, rfl⟩
    · rw [if_pos hs]
      constructor
      · rintro ⟨m2, hm2⟩
        simp at hm2
      · rintro ⟨hcon, _⟩
        exact absurd hcon hs
  · intro hs
    rw [hred, if_pos hs]
  · intro hs ht
    rw [hred, if_neg (by simp [hs]), if_pos ht]
  · intro hs ht
    rw [hred, if_neg (by simp [hs]), if_neg (by simpa using ht)]

/-- Witness for C5 at the concrete store `c5Env`: sender 1 edits message 0
within the 2-minute window, and stranger 2 is refused. -/
theorem editMessage_spec_witness :
    (∃ m2, (editMessage c5Env 2000 1 0 "fixed" ).1 = .ok m2) ∧
    editMessage c5Env 2000 2 0 "nope" = (.error .authorization, c5Env) := by
  constructor
  · exact (editMessage_spec c5Env 2000 1 0 "fixed"
      ((c5Env.msgs).get ⟨0, by decide⟩) (by decide)).1.mpr ⟨by decide, by decide⟩
  · exact (editMessage_spec c5Env 2000 2 0 "nope"
      ((c5Env.msgs).get ⟨0, by decide⟩) (by decide)).2.1 (by decide)

/-- Claim C10: for an existing conversation and a caller who is NOT a
participant, `deleteConversationForMe` and `deleteAllMessagesForMe` both
succeed and add the caller to the respective `hiddenFor` sets — neither
performs a participant check — while `deleteMyMessagesInConversation`
refuses the same caller with AuthorizationError. -/
theorem hiddenFor_no_participant_check (env : MsgEnv) (now : Nat)
    (callerId : UserId) (convId : ConvId) (conv : Conversation)
    (hfind : findById Conversation.id env.convs convId = some conv)
    (hnp : isParticipant conv callerId = false) :
    ((deleteConversationForMe env callerId convId).1 = .ok () ∧
      ∃ conv2, findById Conversation.id
          (deleteConversationForMe env callerId convId).2.convs convId = some conv2 ∧
        callerId ∈ conv2.hiddenFor) ∧
    ((deleteAllMessagesForMe env callerId convId).1 = .ok () ∧
      ∀ m2 ∈ (deleteAllMessagesForMe env callerId convId).2.msgs,
        m2.conversation = convId → callerId ∈ m2.hiddenFor) ∧
    (deleteMyMessagesInConversation env now callerId convId).1 =
      .error .authorization := by
  have hcid : conv.id = convId := by
    have := List.find?_some hfind
    simpa using this
  have hredC : deleteConversationForMe env callerId convId =
      (.ok (), { env with
        convs := saveById Conversation.id env.convs (addToSetHidden conv callerId) }) := by
    simp only [deleteConversationForMe]
    rw [hfind]
  refine ⟨⟨?_, ?_⟩, ⟨rfl, ?_⟩, ?_⟩
  · rw [hredC]
  · rw [hredC]
    refine ⟨_, find?_saveById Conversation.id env.convs _ convId ?_ ?_, ?_⟩
    · by_cases h : callerId ∈ conv.hiddenFor <;> simp [addToSetHidden, h, hcid]
    · have := congrArg Option.isSome hfind
      simpa [findById] using this
    · by_cases h : callerId ∈ conv.hiddenFor <;> simp [addToSetHidden, h]
  · intro m2 hm2 hm2c
    simp only [deleteAllMessagesForMe] at hm2
    rcases List.mem_map.mp hm2 with ⟨m0, hm0, hm0'⟩
    by_cases hcond : m0.conversation == convId && !(m0.hiddenFor.contains callerId)
    · rw [if_pos hcond] at hm0'
      rw [← hm0']
      simp
    · rw [if_neg (by simpa using hcond)] at hm0'
      subst hm0'
      have hcontains : m0.hiddenFor.contains callerId = true := by
        by_contra h2
        refine hcond ?_
        simp [hm2c]
        simpa using h2
      simpa using hcontains
  · simp only [deleteMyMessagesInConversation]
    rw [hfind]
    simp [hnp]

/-- Witness for C10 at the concrete store `c10Env`: user 3, a stranger to
conversation 9, hides it and its messages but cannot soft-delete. -/
theorem hiddenFor_no_participant_check_witness :
    ((deleteConversationForMe c10Env 3 9).1 = .ok () ∧
      ∃ conv2, findById Conversation.id
          (deleteConversationForMe c10Env 3 9).2.convs 9 = some conv2 ∧
        (3 : UserId) ∈ conv2.hiddenFor) ∧
    ((deleteAllMessagesForMe c10Env 3 9).1 = .ok () ∧
      ∀ m2 ∈ (deleteAllMessagesForMe c10Env 3 9).2.msgs,
        m2.conversation = 9 → (3 : UserId) ∈ m2.hiddenFor) ∧
    (deleteMyMessagesInConversation c10Env 777 3 9).1 = .error .authorization :=
  hiddenFor_no_participant_check c10Env 777 3 9
    ((c10Env.convs).get ⟨0, by decide⟩) (by decide) (by decide)

/-- Field-level description of the conversation update a sent message
performs: id preserved, lastMessage/lastMessageAt set to the new message,
the unread counter of the role opposite the sender incremented by one, the
sender's own unread counter unchanged. -/
theorem sendConvUpdate_fields (conv : Conversation) (mid : MsgId) (createdAt : Nat)
    (r : Role) (callerId : UserId) :
    (sendConvUpdate conv mid createdAt r callerId).id = conv.id ∧
    (sendConvUpdate conv mid createdAt r callerId).lastMessage = some mid ∧
    (sendConvUpdate conv mid createdAt r callerId).lastMessageAt = createdAt ∧
    (sendConvUpdate conv mid createdAt r callerId).unreadOf r.other =
      conv.unreadOf r.other + 1 ∧
    (sendConvUpdate conv mid createdAt r callerId).unreadOf r = conv.unreadOf r := by
  cases r <;>
    simp [sendConvUpdate, bumpConv, Role.other, Conversation.unreadOf]

/-- Claim C4: a successful `sendMessage` by a participant increments the
unread counter of the other participant's role by exactly 1, leaves the
sender's own unread counter unchanged, and sets the conversation's
lastMessage/lastMessageAt to the new message and its creation timestamp. -/
theorem sendMessage_unread_spec (env : MsgEnv) (now : Nat) (callerId : UserId)
    (callerRole : Role) (convId : ConvId) (rc : Content) (t : MsgType)
    (replyTo : Option MsgId) (conv : Conversation) (p : Participant)
    (hvalid : sendMessageValidationOk (some rc) t = true)
    (hfind : findById Conversation.id env.convs convId = some conv)
    (hpart : isParticipant conv callerId = true)
    (hp : p ∈ conv.participants) (hpu : p.user ≠ callerId)
    (hrole : p.userType = callerRole.other) :
    ∃ m conv2,
      (sendMessage env now callerId callerRole convId (some rc) t replyTo).1 = .ok m ∧
      findById Conversation.id
        (sendMessage env now callerId callerRole convId (some rc) t replyTo).2.convs
        convId = some conv2 ∧
      conv2.unreadOf p.userType = conv.unreadOf p.userType + 1 ∧
      conv2.unreadOf callerRole = conv.unreadOf callerRole ∧
      conv2.lastMessageAt = m.createdAt ∧
      conv2.lastMessage = some m.id := by
  have hcid : conv.id = convId := by
    have := List.find?_some hfind
    simpa using this
  have hred : sendMessage env now callerId callerRole convId (some rc) t replyTo =
      (.ok (sendMsgNew env.msgs.length now callerId callerRole convId rc t replyTo),
       { env with
         convs := saveById Conversation.id env.convs
           (sendConvUpdate conv env.msgs.length now callerRole callerId)
         msgs := env.msgs ++
           [sendMsgNew env.msgs.length now callerId callerRole convId rc t replyTo]
         notifs := sendNotifUpdate env.notifs conv callerId }) := by
    simp only [sendMessage]
    rw [hvalid, hfind]
    simp [hpart, sendMsgNew]
  refine ⟨sendMsgNew env.msgs.length now callerId callerRole convId rc t replyTo,
    sendConvUpdate conv env.msgs.length now callerRole callerId,
    ?_, ?_, ?_, ?_, ?_, ?_⟩
  · rw [hred]
  · rw [hred]
    exact find?_saveById Conversation.id env.convs _ convId
      (by rw [(sendConvUpdate_fields conv env.msgs.length now callerRole callerId).1, hcid])
      (by have := congrArg Option.isSome hfind; simpa [findById] using this)
  · rw [hrole]
    exact (sendConvUpdate_fields conv env.msgs.length now callerRole callerId).2.2.2.1
  · exact (sendConvUpdate_fields conv env.msgs.length now callerRole callerId).2.2.2.2
  · exact (sendConvUpdate_fields conv env.msgs.length now callerRole callerId).2.2.1
  · exact (sendConvUpdate_fields conv env.msgs.length now callerRole callerId).2.1

/-- Witness for C4 at the concrete store `c10Env`: user 1 sends a text to
conversation 9, whose other participant is professional 2. -/
theorem sendMessage_unread_spec_witness :
    ∃ m conv2,
      (sendMessage c10Env 900 1 Role.user 9
        (some { text := some "yo", location := none, contact := none })
        MsgType.text none).1 = .ok m ∧
      findById Conversation.id
        (sendMessage c10Env 900 1 Role.user 9
          (some { text := some "yo", location := none, contact := none })
          MsgType.text none).2.convs 9 = some conv2 ∧
      conv2.unreadOf Role.professional =
        ((c10Env.convs).get ⟨0, by decide⟩).unreadOf Role.professional + 1 ∧
      conv2.unreadOf Role.user = ((c10Env.convs).get ⟨0, by decide⟩).unreadOf Role.user ∧
      conv2.lastMessageAt = m.createdAt ∧
      conv2.lastMessage = some m.id :=
  sendMessage_unread_spec c10Env 900 1 Role.user 9
    { text := some "yo", location := none, contact := none } MsgType.text none
    ((c10Env.convs).get ⟨0, by decide⟩) { user := 2, userType := Role.professional }
    (by decide) (by decide) (by decide) (by decide) (by decide) (by decide)

/-- Counterexample to claim C3: at the concrete store `c10Env`, participant 1
sends a `location`-typed message whose content has `lat` but no `lng`; the
claim says the request is rejected before persistence with the conversation
unchanged, but `sendMessage` succeeds, a new message document is stored, and
the conversation is updated. -/
theorem locationLatOnly_persisted_cex :
    (∃ m, (sendMessage c10Env 900 1 Role.user 9 (some c3Req)
        MsgType.location none).1 = .ok m) ∧
    (sendMessage c10Env 900 1 Role.user 9 (some c3Req)
        MsgType.location none).2.msgs.length = c10Env.msgs.length + 1 ∧
    (sendMessage c10Env 900 1 Role.user 9 (some c3Req)
        MsgType.location none).2.convs ≠ c10Env.convs := by
  exact ⟨⟨_, rfl⟩, by decide, by decide⟩

/-- Claim C3 (amended): a `location`-typed message whose content has `lat`
but not `lng` is NOT rejected: `sendMessage` by a participant still
succeeds, but the invalid location branch is dropped, so the persisted
message has an entirely empty content envelope, and the message is appended
to the message store. -/
theorem sendMessage_latOnly_amended (env : MsgEnv) (now : Nat) (callerId : UserId)
    (callerRole : Role) (convId : ConvId) (l : LocPayload) (replyTo : Option MsgId)
    (conv : Conversation)
    (hlng : l.lng = none)
    (hfind : findById Conversation.id env.convs convId = some conv)
    (hpart : isParticipant conv callerId = true) :
    ∃ m, (sendMessage env now callerId callerRole convId
        (some { text := none, location := some l, contact := none })
        MsgType.location replyTo).1 = .ok m ∧
      m.content = emptyContent ∧
      (sendMessage env now callerId callerRole convId
        (some { text := none, location := some l, contact := none })
        MsgType.location replyTo).2.msgs = env.msgs ++ [m] := by
  have hvalid : sendMessageValidationOk
      (some { text := none, location := some l, contact := none })
      MsgType.location = true := by
    simp [sendMessageValidationOk]
  have hred : sendMessage env now callerId callerRole convId
      (some { text := none, location := some l, contact := none })
      MsgType.location replyTo =
      (.ok (sendMsgNew env.msgs.length now callerId callerRole convId
          { text := none, location := some l, contact := none } MsgType.location replyTo),
       { env with
         convs := saveById Conversation.id env.convs
           (sendConvUpdate conv env.msgs.length now callerRole callerId)
         msgs := env.msgs ++
           [sendMsgNew env.msgs.length now callerId callerRole convId
             { text := none, location := some l, contact := none } MsgType.location replyTo]
         notifs := sendNotifUpdate env.notifs conv callerId }) := by
    simp only [sendMessage]
    rw [hvalid, hfind]
    simp [hpart, sendMsgNew]
  refine ⟨sendMsgNew env.msgs.length now callerId callerRole convId
      { text := none, location := some l, contact := none } MsgType.location replyTo,
    ?_, ?_, ?_⟩
  · rw [hred]
  · simp [sendMsgNew, contentFromReq, strTruthy, hlng]
  · rw [hred]

/-- Witness for the amended C3 at the concrete store `c10Env`. -/
theorem sendMessage_latOnly_amended_witness :
    ∃ m, (sendMessage c10Env 900 1 Role.user 9 (some
        { text := none, location := some { lat := some 5, lng := none, accuracy := none },
          contact := none })
        MsgType.location none).1 = .ok m ∧
      m.content = emptyContent ∧
      (sendMessage c10Env 900 1 Role.user 9 (some
        { text := none, location := some { lat := some 5, lng := none, accuracy := none },
          contact := none })
        MsgType.location none).2.msgs = c10Env.msgs ++ [m] :=
  sendMessage_latOnly_amended c10Env 900 1 Role.user 9
    { lat := some 5, lng := none, accuracy := none } none
    ((c10Env.convs).get ⟨0, by decide⟩) (by decide) (by decide) (by decide)

/-- Counterexample to claim C6: `shareLocation` at the concrete store
`c10Env` persists a message whose content populates TWO union branches (text
and location) under messageType `location_share` — not exactly one. -/
theorem shareLocation_two_branches_cex :
    ∃ m, (shareLocation c10Env 900 1 Role.user 9 5 6 none).1 = .ok m ∧
      m.content.text.isSome = true ∧ m.content.location.isSome = true ∧
      m.content.branchCount = 2 ∧ m.messageType = MsgType.location_share ∧
      (shareLocation c10Env 900 1 Role.user 9 5 6 none).2.msgs.length =
        c10Env.msgs.length + 1 := by
  exact ⟨_, rfl, by decide, by decide, by decide, by decide, by decide⟩

/-- Claim C6 (amended): messages persisted by `sendMessage` populate at most
one branch, and a populated branch matches the messageType; but the
exactly-one-matching-branch invariant fails elsewhere: `shareLocation`
persists both text and location branches, `stopLocationShare` persists a
text branch under messageType `system`, and `editMessage` overwrites the
text branch while leaving any other populated branch of the original
message in place, regardless of its messageType. -/
theorem message_content_branches_amended :
    (∀ t rc, (contentFromReq t rc).branchCount ≤ 1 ∧
      ((contentFromReq t rc).text.isSome → t = MsgType.text) ∧
      ((contentFromReq t rc).location.isSome →
        t = MsgType.location ∨ t = MsgType.location_share) ∧
      ((contentFromReq t rc).contact.isSome → t = MsgType.contact)) ∧
    (∀ env now callerId callerRole convId lat lng acc m,
      (shareLocation env now callerId callerRole convId lat lng acc).1 = .ok m →
      m.content.text.isSome = true ∧ m.content.location.isSome = true ∧
        m.content.contact = none ∧ m.messageType = MsgType.location_share) ∧
    (∀ env now callerId callerRole convId m,
      (stopLocationShare env now callerId callerRole convId).1 = .ok m →
      m.content = { text := some "🔒 Location sharing stopped."
                    location := none, contact := none } ∧
        m.messageType = MsgType.system) ∧
    (∀ env now callerId msgId newText m m2,
      findById Message.id env.msgs msgId = some m →
      (editMessage env now callerId msgId newText).1 = .ok m2 →
      m2.content.text = some newText ∧
        m2.content.location = m.content.location ∧
        m2.content.contact = m.content.contact) := by
  refine ⟨?_, ?_, ?_, ?_⟩
  · intro t rc
    unfold contentFromReq
    split_ifs <;> simp_all [Content.branchCount, emptyContent] <;>
      split_ifs <;> simp_all
  · intro env now callerId callerRole convId lat lng acc m h
    cases hfind : findById Conversation.id env.convs convId with
    | none => simp [shareLocation, hfind] at h
    | some conv =>
      by_cases hp : isParticipant conv callerId
      · simp [shareLocation, hfind, hp] at h
        rw [← h]
        exact ⟨rfl, rfl, rfl, rfl⟩
      · simp [shareLocation, hfind, hp] at h
  · intro env now callerId callerRole convId m h
    cases hfind : findById Conversation.id env.convs convId with
    | none => simp [stopLocationShare, hfind] at h
    | some conv =>
      by_cases hp : isParticipant conv callerId
      · simp [stopLocationShare, hfind, hp] at h
        rw [← h]
        exact ⟨rfl, rfl⟩
      · simp [stopLocationShare, hfind, hp] at h
  · intro env now callerId msgId newText m m2 hfind h
    have hred : editMessage env now callerId msgId newText =
        (if m.sender ≠ callerId then (Except.error Err.authorization, env)
         else if now - m.createdAt > 2 * 60 * 1000 then (Except.error Err.validation, env)
         else (.ok (editedMsg m now newText),
           { env with msgs := saveById Message.id env.msgs (editedMsg m now newText) })) := by
      simp only [editMessage]
      rw [hfind]
      rfl
    rw [hred] at h
    by_cases hs : m.sender ≠ callerId
    · rw [if_pos hs] at h
      simp at h
    · rw [if_neg hs] at h
      by_cases ht : now - m.createdAt > 2 * 60 * 1000
      · rw [if_pos ht] at h
        simp at h
      · rw [if_neg ht] at h
        simp [editedMsg] at h
        rw [← h]
        exact ⟨rfl, rfl, rfl⟩

/-- Witness for the amended C6 at concrete inputs: a plain text send, and a
`stopLocationShare` run at `c10Env`. -/
theorem message_content_branches_amended_witness :
    (contentFromReq MsgType.text
      { text := some "hi", location := none, contact := none }).branchCount ≤ 1 ∧
    (∃ m, (stopLocationShare c10Env 901 2 Role.professional 9).1 = .ok m ∧
      m.content = { text := some "🔒 Location sharing stopped."
                    location := none, contact := none } ∧
      m.messageType = MsgType.system) := by
  refine ⟨(message_content_branches_amended.1 MsgType.text
    { text := some "hi", location := none, contact := none }).1, ?_⟩
  obtain ⟨m, hm⟩ : ∃ m, (stopLocationShare c10Env 901 2 Role.professional 9).1 = .ok m :=
    ⟨_, rfl⟩
  exact ⟨m, hm, message_content_branches_amended.2.2.1 c10Env 901 2 Role.professional 9 m hm⟩

/-- Claim C7: the schema pre-save hook rejects any conversation whose
participants array does not have exactly 2 members, and every conversation
`createOrGetConversation` adds to the store has exactly the two participants
with complementary roles (caller's role and its opposite), hence passes the
hook. -/
theorem conversation_two_participants_spec :
    (∀ c : Conversation, c.participants.length ≠ 2 →
      preSaveCheck c = .error "Conversation must have exactly 2 participants") ∧
    (∀ c : Conversation, preSaveCheck c = .ok () → c.participants.length = 2) ∧
    (∀ env now callerId callerRole otherUserId jobId,
      ∀ c ∈ (createOrGetConversation env now callerId callerRole otherUserId jobId).2.convs,
        c ∈ env.convs ∨
        (c.participants = [{ user := callerId, userType := callerRole },
                           { user := otherUserId, userType := callerRole.other }] ∧
         c.participants.length = 2 ∧ preSaveCheck c = .ok ())) := by
  refine ⟨?_, ?_, ?_⟩
  · intro c h
    simp [preSaveCheck, h]
  · intro c h
    by_contra hne
    simp [preSaveCheck, hne] at h
  · intro env now callerId callerRole otherUserId jobId c hc
    by_cases h1 : callerId ∉ env.users
    · simp [createOrGetConversation, h1] at hc
      exact .inl hc
    · by_cases h2 : otherUserId ∉ env.users
      · simp [createOrGetConversation, h1, h2] at hc
        exact .inl hc
      · cases hfind : env.convs.find? (pairQuery callerId otherUserId) with
        | some c0 =>
          simp [createOrGetConversation, h1, h2, hfind] at hc
          exact .inl hc
        | none =>
          simp [createOrGetConversation, h1, h2, hfind] at hc
          rcases hc with hc | hc
          · exact .inl hc
          · right
            subst hc
            exact ⟨rfl, rfl, rfl⟩

/-- Witness for C7: the empty-participants conversation is rejected by the
hook, and the conversation created between users 1 and 2 at `c5Env` is the
two-participant complementary-role one. -/
theorem conversation_two_participants_spec_witness :
    preSaveCheck c7BadConv = .error "Conversation must have exactly 2 participants" ∧
    (c7NewConv ∈ c5Env.convs ∨
      (c7NewConv.participants = [{ user := 1, userType := Role.user },
                                 { user := 2, userType := Role.user.other }] ∧
       c7NewConv.participants.length = 2 ∧ preSaveCheck c7NewConv = .ok ())) :=
  ⟨conversation_two_participants_spec.1 c7BadConv (by decide),
   conversation_two_participants_spec.2.2 c5Env 100 1 Role.user 2 none c7NewConv
     (by decide)⟩

/-- The lookup query treats the two user ids symmetrically. -/
theorem pairQuery_comm (u v : UserId) (c : Conversation) :
    pairQuery u v c = pairQuery v u c := by
  unfold pairQuery
  cases c.participants.any fun p => p.user == u <;>
    cases c.participants.any fun p => p.user == v <;> rfl

/-- Claim C9: two `createOrGetConversation` calls with the same unordered
pair of existing users return the same conversation, regardless of which
user initiates each call: the second call finds what the first found or
created instead of creating a new conversation. -/
theorem createOrGetConversation_idempotent (env : MsgEnv) (now1 now2 : Nat)
    (a b : UserId) (ra rb : Role) (j1 j2 : Option JobId)
    (ha : a ∈ env.users) (hb : b ∈ env.users) :
    ∃ c, (createOrGetConversation env now1 a ra b j1).1 = .ok c ∧
      (createOrGetConversation
        (createOrGetConversation env now1 a ra b j1).2 now2 b rb a j2).1 = .ok c := by
  have ha' : ¬ a ∉ env.users := by simpa using ha
  have hb' : ¬ b ∉ env.users := by simpa using hb
  cases hfind : env.convs.find? (pairQuery a b) with
  | some c =>
    have hfind' : env.convs.find? (pairQuery b a) = some c := by
      rw [find?_congrPred (pairQuery b a) (pairQuery a b) env.convs
        (fun x => pairQuery_comm b a x)]
      exact hfind
    have henv : (createOrGetConversation env now1 a ra b j1).2 = env := by
      simp [createOrGetConversation, ha', hb', hfind]
    refine ⟨c, ?_, ?_⟩
    · simp [createOrGetConversation, ha', hb', hfind]
    · rw [henv]
      simp [createOrGetConversation, ha', hb', hfind']
  | none =>
    have hfind0 : env.convs.find? (pairQuery b a) = none := by
      rw [find?_congrPred (pairQuery b a) (pairQuery a b) env.convs
        (fun x => pairQuery_comm b a x)]
      exact hfind
    let newc : Conversation :=
      { id := env.convs.length
        participants := [{ user := a, userType := ra },
                         { user := b, userType := ra.other }]
        job := j1, lastMessage := none, lastMessageAt := now1
        isActive := true, unreadUser := 0, unreadPro := 0, hiddenFor := [] }
    have henv : (createOrGetConversation env now1 a ra b j1).2 =
        { env with convs := env.convs ++ [newc] } := by
      simp [createOrGetConversation, ha', hb', hfind, newc]
    have hnewq : pairQuery b a newc = true := by
      simp [pairQuery, newc]
    have hfind2 : (env.convs ++ [newc]).find? (pairQuery b a) = some newc := by
      rw [List.find?_append, hfind0]
      simp [hnewq]
    refine ⟨newc, ?_, ?_⟩
    · simp [createOrGetConversation, ha', hb', hfind, newc]
    · rw [henv]
      simp only [createOrGetConversation]
      rw [if_neg (by simpa using hb), if_neg (by simpa using ha), hfind2]

/-- Witness for C9 at the concrete store `c5Env`: user 1 then user 2 get the
same conversation. -/
theorem createOrGetConversation_idempotent_witness :
    ∃ c, (createOrGetConversation c5Env 100 1 Role.user 2 none).1 = .ok c ∧
      (createOrGetConversation
        (createOrGetConversation c5Env 100 1 Role.user 2 none).2
        200 2 Role.professional 1 none).1 = .ok c :=
  createOrGetConversation_idempotent c5Env 100 200 1 2 Role.user Role.professional
    none none (by decide) (by decide)

/-- Counterexample to claim C8: in `acceptApplication` the conversation-room
`job:update` emit is not inside any try/catch, so when that push fails, the
operation reports a server error to the caller even though the job was
already persisted — contradicting "a failure in steps 3–4 never propagates
to the caller as an error and the operation still reports success". The
persisted job state is nonetheless not reverted. -/
theorem acceptApplicationFx_emit_error_cex :
    (acceptApplicationFx c8Env []
      { notifSaveFails := false, convEmitFails := true, userEmitFails := false }
      1 20 30).1 = .error .server ∧
    ∃ j, findById Job.id (acceptApplicationFx c8Env []
        { notifSaveFails := false, convEmitFails := true, userEmitFails := false }
        1 20 30).2.1.jobs 20 = some j ∧
      j.lifecycleState = LifecycleState.chat_open := by
  exact ⟨rfl, ⟨_, rfl, rfl⟩⟩

/-- Claim C8 (amended): after `acceptApplication` persists the job, a failure
while creating the counterparty Notification (swallowed inside
`createNotification`) or while emitting to the user rooms (inside an empty
catch) never propagates and never reverts the persisted job state; however
a failure of the unguarded conversation-room emit (possible only when the
job has a conversation) propagates as a server error to the caller — while
the persisted job state still remains, never reverted, in every case. -/
theorem acceptApplicationFx_best_effort_amended (env : JobEnv)
    (notifs : List Notification) (flags : FxFlags) (userId : UserId)
    (jobId : JobId) (applicationId : AppId) (job' : Job) (env' : JobEnv)
    (hok : acceptApplication env userId jobId applicationId = .ok (job', env')) :
    (acceptApplicationFx env notifs flags userId jobId applicationId).2.1 = env' ∧
    (¬(job'.conversation.isSome = true ∧ flags.convEmitFails = true) →
      (acceptApplicationFx env notifs flags userId jobId applicationId).1 = .ok job') ∧
    ((job'.conversation.isSome = true ∧ flags.convEmitFails = true) →
      (acceptApplicationFx env notifs flags userId jobId applicationId).1 =
        .error .server) := by
  refine ⟨?_, ?_, ?_⟩
  · by_cases hc : job'.conversation.isSome = true ∧ flags.convEmitFails = true
    · simp [acceptApplicationFx, hok, hc]
    · simp [acceptApplicationFx, hok, hc]
  · intro hc
    simp [acceptApplicationFx, hok, hc]
  · intro hc
    simp [acceptApplicationFx, hok, hc]

/-- Witness for the amended C8 at the concrete store `c8Env`: with the
notification save and the user-room emits failing but the conversation-room
emit succeeding, `acceptApplicationFx` still reports success with the
persisted job. -/
theorem acceptApplicationFx_best_effort_amended_witness :
    (acceptApplicationFx c8Env []
      { notifSaveFails := true, convEmitFails := false, userEmitFails := true }
      1 20 30).2.1 = c8EnvSaved ∧
    (acceptApplicationFx c8Env []
      { notifSaveFails := true, convEmitFails := false, userEmitFails := true }
      1 20 30).1 = .ok c8JobSaved := by
  have h := acceptApplicationFx_best_effort_amended c8Env []
    { notifSaveFails := true, convEmitFails := false, userEmitFails := true }
    1 20 30 c8JobSaved c8EnvSaved rfl
  exact ⟨h.1, h.2.1 (by decide)⟩

end FixFinder
